import Mathlib

/-!
Verification development for the vibemoney backend (FastAPI gateway over
Alpha Vantage / Polygon providers).

The Python source is shallowly embedded: JSON-like provider payloads are
modelled by the inductive type `JVal` (numbers as exact rationals),
Python `None` is `JVal.null`, Python dictionaries are association lists,
and fallible Python code (code that can raise) is modelled in `Except`.
Function names follow the source (`_coerce_float`, `_get_path`,
`_pick_first`, `_revision_signal`, `_parse_estimate_node`,
`_pluck_lists`, `_normalize_points`, ...).
-/

/-- A JSON-like Python value: `None`, bool, number (exact rational),
string, list, or dict (association list, keys unique in practice). -/
inductive JVal where
  | null : JVal
  | bool (b : Bool) : JVal
  | num (q : ℚ) : JVal
  | str (s : String) : JVal
  | arr (elems : List JVal) : JVal
  | obj (fields : List (String × JVal)) : JVal

/-- Is this value Python `None`? -/
def JVal.isNull : JVal → Bool
  | .null => true
  | _ => false

/-- Python truthiness of a `JVal` (`bool(x)`). -/
def JVal.truthy : JVal → Bool
  | .null => false
  | .bool b => b
  | .num q => q != 0
  | .str s => s != ""
  | .arr l => !l.isEmpty
  | .obj l => !l.isEmpty

/-- Python `a or b` on `JVal`s: `a` when truthy, else `b`. -/
def pyOr (a b : JVal) : JVal := if a.truthy then a else b

/-- Python `d.get(k)` on a dict: the value at `k`, or `None` when absent. -/
def pyGet (fields : List (String × JVal)) (k : String) : JVal :=
  (List.lookup k fields).getD .null

/-- Python `k in d` on a dict: key membership. -/
def pyHasKey (fields : List (String × JVal)) (k : String) : Bool :=
  (List.lookup k fields).isSome

/-- Fold a list of decimal digit characters into a natural number. -/
def foldDigits (cs : List Char) : ℕ :=
  cs.foldl (fun n c => 10 * n + (c.toNat - 48)) 0

/-- Parse a nonempty all-digit character list as a natural number. -/
def natOfDigits (cs : List Char) : Option ℕ :=
  if cs ≠ [] ∧ cs.all Char.isDigit then some (foldDigits cs) else none

/-- Parse an unsigned decimal literal (`"12"`, `"12.5"`, `"12."`, `".5"`)
as an exact rational; `none` when the characters are not such a literal. -/
def parseUnsignedDec (cs : List Char) : Option ℚ :=
  match cs.splitOn '.' with
  | [ip] => (natOfDigits ip).map (fun n => (n : ℚ))
  | [ip, fp] =>
      if (ip ≠ [] ∨ fp ≠ []) ∧ ip.all Char.isDigit ∧ fp.all Char.isDigit then
        some ((foldDigits ip : ℚ) + (foldDigits fp : ℚ) / ((10 : ℚ) ^ fp.length))
      else none
  | _ => none

/-- Strip leading and trailing whitespace from a character list (the
whitespace stripping Python's numeric conversions perform). -/
def stripSpaces (cs : List Char) : List Char :=
  ((cs.dropWhile Char.isWhitespace).reverse.dropWhile Char.isWhitespace).reverse

/-- Python `float(s)` on a string (decimal subset): optional sign and a
decimal literal, surrounding whitespace stripped; `none` when parsing
fails (Python raises `ValueError`, always caught by the callers here). -/
def parseFloat (s : String) : Option ℚ :=
  match stripSpaces s.data with
  | '+' :: rest => parseUnsignedDec rest
  | '-' :: rest => (parseUnsignedDec rest).map Neg.neg
  | cs => parseUnsignedDec cs

/-- Python `float(x)`: numbers pass through, bools become 0/1, strings
are parsed; `none` models the `TypeError`/`ValueError` raise. -/
def pyFloat (x : JVal) : Option ℚ :=
  match x with
  | .num q => some q
  | .bool b => some (if b then 1 else 0)
  | .str s => parseFloat s
  | _ => none

/-- Parse a signed integer string (Python `int(s)`). -/
def parseInt (s : String) : Option ℤ :=
  match stripSpaces s.data with
  | '+' :: rest => (natOfDigits rest).map (fun n => (n : ℤ))
  | '-' :: rest => (natOfDigits rest).map (fun n => -(n : ℤ))
  | cs => (natOfDigits cs).map (fun n => (n : ℤ))

/-- Python `int(x)`: floats truncate toward zero, bools become 0/1,
integer strings are parsed; `none` models the raise. -/
def pyInt (x : JVal) : Option ℤ :=
  match x with
  | .num q => some (q.num / (q.den : ℤ))
  | .bool b => some (if b then 1 else 0)
  | .str s => parseInt s
  | _ => none

/-- `_coerce_float` (estimates router): `None` and `""` coerce to
`None`; otherwise `float(x)`, with any conversion failure swallowed. -/
def _coerce_float : JVal → Option ℚ
  | .null => none
  | .str "" => none
  | x => pyFloat x

/-- `_coerce_int` (estimates router): `None` and `""` coerce to `None`;
otherwise `int(x)`, with any conversion failure swallowed. -/
def _coerce_int : JVal → Option ℤ
  | .null => none
  | .str "" => none
  | x => pyInt x

/-- `_get_path` (estimates router): walk `path` through nested dicts,
returning `None` as soon as the current value is not a dict or the key
is absent. -/
def _get_path : JVal → List String → JVal
  | cur, [] => cur
  | cur, k :: ks =>
      match cur with
      | .obj fields =>
          match List.lookup k fields with
          | some v => _get_path v ks
          | none => .null
      | _ => .null

/-- `_pick_first` with `cast_float=True`: the float-coerced value at the
first candidate path whose traversal yields a non-`None` value. -/
def _pick_first (d : JVal) : List (List String) → Option ℚ
  | [] => none
  | p :: ps =>
      match _get_path d p with
      | .null => _pick_first d ps
      | v => _coerce_float v

/-- `_pick_first` with `cast_float=False`: the raw value at the first
candidate path whose traversal yields a non-`None` value. -/
def _pick_first_raw (d : JVal) : List (List String) → Option JVal
  | [] => none
  | p :: ps =>
      match _get_path d p with
      | .null => _pick_first_raw d ps
      | v => some v

/-- `RevisionSignal` response model (estimates router). -/
structure RevisionSignal where
  revised : Bool
  first : Option ℚ
  last : Option ℚ
  delta : Option ℚ
  sign : Option String
  deriving DecidableEq

/-- `_revision_signal` (estimates router): with at least two values,
report `first`/`last`/`delta` and the trend sign; otherwise an
all-null, `revised=false` signal. -/
def _revision_signal (values : List ℚ) : RevisionSignal :=
  if 2 ≤ values.length then
    let first := values.headI
    let last := values.getLastI
    let delta := last - first
    let sign := if first < last then "good" else if last < first then "bad" else "flat"
    ⟨true, some first, some last, some delta, some sign⟩
  else
    ⟨false, none, none, none, none⟩

/-- Spec-side path traversal, following the spec's words: every
intermediate key must be present and map to a sub-mapping, and the
terminal value must be present and non-null; `none` otherwise. -/
def specTraverse : JVal → List String → Option JVal
  | d, [] => if d.isNull then none else some d
  | d, k :: ks =>
      match d with
      | .obj fields => (List.lookup k fields).bind (fun v => specTraverse v ks)
      | _ => none

/-- Candidate paths probed for an EPS average inside one revision
snapshot (estimates router, `_extract_revision_values`). -/
def epsSnapshotPaths : List (List String) :=
  [["eps", "avg"], ["eps", "mean"], ["epsAvg"], ["eps_mean"], ["eps_avg"],
   ["estimate", "eps", "avg"], ["estimate_avg_eps"]]

/-- Candidate paths probed for a revenue average inside one revision
snapshot (estimates router, `_extract_revision_values`). -/
def revenueSnapshotPaths : List (List String) :=
  [["revenue", "avg"], ["revenue", "mean"], ["revenueAvg"], ["revenue_mean"], ["revenue_avg"],
   ["estimate", "revenue", "avg"], ["estimate_avg_revenue"]]

/-- `_extract_revision_values` (estimates router): extract the revision
values for `kind` from a revision node that is either a list of
snapshot dicts or a dict holding per-kind snapshot lists; anything
else, and every non-dict snapshot, contributes nothing. -/
def _extract_revision_values (rev_node : JVal) (kind : String) : List ℚ :=
  match rev_node with
  | .arr snaps =>
      snaps.filterMap (fun snap =>
        match snap with
        | .obj _ =>
            if kind = "eps" then _pick_first snap epsSnapshotPaths
            else _pick_first snap revenueSnapshotPaths
        | _ => none)
  | .obj fields =>
      match pyGet fields kind with
      | .arr subs =>
          subs.filterMap (fun snap =>
            match snap with
            | .obj _ => _pick_first snap [["avg"], ["mean"], [kind ++ "Avg"], ["value"]]
            | _ => none)
      | _ => []
  | _ => []

/-- `EstimatePoint` response model (estimates router). -/
structure EstimatePoint where
  fiscal_date_ending : Option String
  period : String
  quarter : Option String
  eps_avg : Option ℚ
  eps_low : Option ℚ
  eps_high : Option ℚ
  eps_num_analysts : Option ℤ
  revenue_avg : Option ℚ
  revenue_low : Option ℚ
  revenue_high : Option ℚ
  revenue_num_analysts : Option ℤ
  eps_revision : RevisionSignal
  revenue_revision : RevisionSignal
  deriving DecidableEq

/-- Pydantic v2 validation of an `Optional[str]` field from a raw
extracted value: `None` and strings pass; any other type raises
`ValidationError` (pydantic v2 does not coerce numbers to strings). -/
def validateOptStr : Option JVal → Except String (Option String)
  | none => .ok none
  | some .null => .ok none
  | some (.str s) => .ok (some s)
  | some _ => .error "ValidationError"

/-- Wrap an optional Python float back into a value (`None` or float),
as passed from `_pick_first` to `_coerce_int` in the source. -/
def optNum : Option ℚ → JVal
  | none => .null
  | some q => .num q

/-- The revision-history node located by `_parse_estimate_node`:
`node.get("revisions") or node.get("revisionHistory") or
node.get("revision_history") or {}`. -/
def revNodeOf (node : List (String × JVal)) : JVal :=
  pyOr (pyGet node "revisions")
    (pyOr (pyGet node "revisionHistory") (pyOr (pyGet node "revision_history") (.obj [])))

/-- `_parse_estimate_node` (estimates router): probe one raw estimate
dict for fiscal date, quarter, EPS/revenue statistics and a revision
history, and build an `EstimatePoint`. The only raising step is the
pydantic validation of the two string-passthrough fields. -/
def _parse_estimate_node (node : List (String × JVal)) (period : String) :
    Except String EstimatePoint :=
  let nodeV := JVal.obj node
  let fiscal_raw := _pick_first_raw nodeV [["fiscalDateEnding"], ["fiscal_date_ending"], ["fiscal_date"]]
  let quarter_raw := _pick_first_raw nodeV [["quarter"], ["fiscalQuarterEnding"]]
  let eps_avg := _pick_first nodeV
    [["estimate", "eps", "avg"], ["eps", "avg"], ["epsAvg"], ["eps_avg"], ["epsMean"]]
  let eps_low := _pick_first nodeV
    [["estimate", "eps", "low"], ["eps", "low"], ["epsLow"], ["eps_low"]]
  let eps_high := _pick_first nodeV
    [["estimate", "eps", "high"], ["eps", "high"], ["epsHigh"], ["eps_high"]]
  let eps_na := _pick_first nodeV
    [["estimate", "eps", "numAnalysts"], ["eps", "numAnalysts"], ["epsNumAnalysts"], ["numAnalystsEPS"]]
  let eps_num_analysts := _coerce_int (optNum eps_na)
  let rev_avg := _pick_first nodeV
    [["estimate", "revenue", "avg"], ["revenue", "avg"], ["revenueAvg"], ["revenue_avg"], ["revenueMean"]]
  let rev_low := _pick_first nodeV
    [["estimate", "revenue", "low"], ["revenue", "low"], ["revenueLow"], ["revenue_low"]]
  let rev_high := _pick_first nodeV
    [["estimate", "revenue", "high"], ["revenue", "high"], ["revenueHigh"], ["revenue_high"]]
  let rev_na := _pick_first nodeV
    [["estimate", "revenue", "numAnalysts"], ["revenue", "numAnalysts"], ["revenueNumAnalysts"], ["numAnalystsRevenue"]]
  let revenue_num_analysts := _coerce_int (optNum rev_na)
  let rev_node := revNodeOf node
  let eps_rev_values := _extract_revision_values rev_node "eps"
  let rev_rev_values := _extract_revision_values rev_node "revenue"
  match validateOptStr fiscal_raw, validateOptStr quarter_raw with
  | .ok fiscal_date, .ok quarter =>
      .ok ⟨fiscal_date, period, quarter, eps_avg, eps_low, eps_high, eps_num_analysts,
           rev_avg, rev_low, rev_high, revenue_num_analysts,
           _revision_signal eps_rev_values, _revision_signal rev_rev_values⟩
  | .error e, _ => .error e
  | .ok _, .error e => .error e

/-- The final type guard of `_pluck_lists`: keep an actual list, and
degrade anything else to `[]`. -/
def asList : JVal → List JVal
  | .arr l => l
  | _ => []

/-- `_pluck_lists` (estimates router): best-effort discovery of the
annual and quarterly estimate lists, first at top level, then (for a
slot still falsy) under a nested `data`/`estimates` dict; a located
non-list value degrades to `[]`. -/
def _pluck_lists (payload : List (String × JVal)) : List JVal × List JVal :=
  let annual0 := pyOr (pyGet payload "annualEarningsEstimates")
    (pyOr (pyGet payload "annual_estimates") (pyOr (pyGet payload "annual") (.arr [])))
  let quarterly0 := pyOr (pyGet payload "quarterlyEarningsEstimates")
    (pyOr (pyGet payload "quarterly_estimates") (pyOr (pyGet payload "quarterly") (.arr [])))
  let step :=
    if !annual0.truthy || !quarterly0.truthy then
      let data := pyOr (pyGet payload "data") (pyOr (pyGet payload "estimates") (.obj []))
      match data with
      | .obj dfields =>
          (pyOr annual0 (pyOr (pyGet dfields "annualEarningsEstimates")
             (pyOr (pyGet dfields "annual") (.arr []))),
           pyOr quarterly0 (pyOr (pyGet dfields "quarterlyEarningsEstimates")
             (pyOr (pyGet dfields "quarterly") (.arr []))))
      | _ => (annual0, quarterly0)
    else (annual0, quarterly0)
  (asList step.1, asList step.2)

/-- A raw estimate node handed to `_parse_estimate_node` by the route:
the source annotates it as a dict; on anything else the attribute
access `node.get` raises. -/
def parseNodeJ (node : JVal) (period : String) : Except String EstimatePoint :=
  match node with
  | .obj fields => _parse_estimate_node fields period
  | _ => .error "AttributeError"

/-- The points-assembly loop of `get_estimates`: up to `limit` annual
nodes (when requested) parsed and appended first, then up to `limit`
quarterly nodes (when requested). -/
def assemble_points (annual_list quarterly_list : List JVal) (period : String) (limit : ℕ) :
    Except String (List EstimatePoint) :=
  let aRes := if period = "annual" ∨ period = "both" then
      (annual_list.take limit).mapM (fun n => parseNodeJ n "annual")
    else .ok []
  let qRes := if period = "quarterly" ∨ period = "both" then
      (quarterly_list.take limit).mapM (fun n => parseNodeJ n "quarterly")
    else .ok []
  match aRes, qRes with
  | .ok a, .ok q => .ok (a ++ q)
  | .error e, _ => .error e
  | .ok _, .error e => .error e

/-- Is this value a Python list? -/
def JVal.isArr : JVal → Bool
  | .arr _ => true
  | _ => false

/-- Is this value a Python dict? -/
def JVal.isObj : JVal → Bool
  | .obj _ => true
  | _ => false

/-- The all-null revision signal. -/
def nullSignal : RevisionSignal := ⟨false, none, none, none, none⟩

/-- The point produced for an empty raw node. -/
def emptyPoint (period : String) : EstimatePoint :=
  ⟨none, period, none, none, none, none, none, none, none, none, none, nullSignal, nullSignal⟩

/-- `SentimentItem` response model (sentiment router); `article_count`
is a plain (non-optional) integer field. -/
structure SentimentItem where
  ticker : String
  article_count : ℕ
  avg_sentiment : Option ℚ
  label : Option String
  good : Option Bool
  deriving DecidableEq

/-- `_label_from_score` (sentiment router). -/
def _label_from_score : Option ℚ → Option String
  | none => none
  | some score =>
      if score > 0 then some "Positive"
      else if score < 0 then some "Negative"
      else some "Neutral"

/-- Python `d.get(k, dflt)`. -/
def pyGetD (fields : List (String × JVal)) (k : String) (dflt : JVal) : JVal :=
  (List.lookup k fields).getD dflt

/-- Python `v == s` between a JSON value and a string. -/
def jvalEqStr (v : JVal) (s : String) : Bool :=
  match v with
  | .str t => t == s
  | _ => false

/-- Iterating `x or []` in a `for` loop: a falsy value iterates as
empty, a list iterates its items, a truthy non-list raises. -/
def seqOrErr (v : JVal) : Except String (List JVal) :=
  if v.truthy then
    match v with
    | .arr l => .ok l
    | _ => .error "TypeError"
  else .ok []

/-- One `ticker_sentiment` entry in the sentiment aggregation loop:
`some score` when the entry's ticker matches, survives the relevance
filter and its score converts; `none` when the entry is skipped
(non-matching, filtered out, or score conversion failure, which the
source catches with `continue`); error when the entry is not a dict. -/
def matchEntry (ticker : String) (min_relevance : Option ℚ) (ts : JVal) :
    Except String (Option ℚ) :=
  match ts with
  | .obj fs =>
      if jvalEqStr (pyGet fs "ticker") ticker then
        let keep :=
          match min_relevance with
          | none => true
          | some mr =>
              let rel := (pyFloat (pyGetD fs "relevance_score" (.num 0))).getD 0
              decide (mr ≤ rel)
        if keep then
          match pyFloat (pyGet fs "ticker_sentiment_score") with
          | some q => .ok (some q)
          | none => .ok none
        else .ok none
      else .ok none
  | _ => .error "AttributeError"

/-- The matched scores contributed by one feed article (sentiment
router): scan its `ticker_sentiment` entries in order. -/
def articleScores (ticker : String) (min_relevance : Option ℚ) (art : JVal) :
    Except String (List ℚ) :=
  match art with
  | .obj afs => do
      let entries ← seqOrErr (pyGet afs "ticker_sentiment")
      let opts ← entries.mapM (matchEntry ticker min_relevance)
      pure (opts.filterMap id)
  | _ => .error "AttributeError"

/-- The per-ticker body of `get_sentiment`: a response carrying an
`Information`/`Note` marker yields the rate-limited item
(`article_count=0`, all optional fields null); otherwise the feed is
scanned, scores averaged, and label/goodness derived. -/
def processTicker (ticker : String) (data : List (String × JVal)) (good_threshold : ℚ)
    (min_relevance : Option ℚ) : Except String SentimentItem :=
  if pyHasKey data "Information" || pyHasKey data "Note" then
    .ok ⟨ticker, 0, none, none, none⟩
  else do
    let feed ← seqOrErr (pyGet data "feed")
    let scoreLists ← feed.mapM (articleScores ticker min_relevance)
    let scores := scoreLists.flatten
    let avg := if scores.isEmpty then none else some (scores.sum / (scores.length : ℚ))
    pure ⟨ticker, feed.length, avg, _label_from_score avg,
          some (match avg with | none => false | some a => decide (good_threshold ≤ a))⟩

/-- The ticker loop of `get_sentiment` over deduplicated tickers, with
each ticker's provider response given as data: one item per ticker, in
order. -/
def processTickers (pairs : List (String × List (String × JVal))) (good_threshold : ℚ)
    (min_relevance : Option ℚ) : Except String (List SentimentItem) :=
  pairs.mapM (fun p => processTicker p.1 p.2 good_threshold min_relevance)

/-- FastAPI/pydantic JSON serialization of a `SentimentItem`:
`article_count` serializes as a JSON number, the optional fields as
null when absent. -/
def SentimentItem.toJson (it : SentimentItem) : List (String × JVal) :=
  [("ticker", .str it.ticker), ("article_count", .num it.article_count),
   ("avg_sentiment", optNum it.avg_sentiment),
   ("label", match it.label with | none => .null | some s => .str s),
   ("good", match it.good with | none => .null | some b => .bool b)]

/-- `TimeSeriesPoint` schema (timeseries service): a UTC timestamp (in
seconds, exact) plus optional OHLCV fields. -/
structure TimeSeriesPoint where
  timestamp : ℚ
  «open» : Option ℚ
  high : Option ℚ
  low : Option ℚ
  close : Option ℚ
  volume : Option ℚ
  deriving DecidableEq

/-- `ts_ms / 1000` followed by `datetime.fromtimestamp`: true division
works for numbers and bools; anything else raises `TypeError`. -/
def tsOfMs : JVal → Except String ℚ
  | .num q => .ok (q / 1000)
  | .bool b => .ok ((if b then (1 : ℚ) else 0) / 1000)
  | _ => .error "TypeError"

/-- One OHLCV field of `_normalize_points`:
`float(row.get(k)) if row.get(k) is not None else None`. The `float`
call is not guarded, so a present non-coercible value raises. -/
def fieldFloat (row : List (String × JVal)) (k : String) : Except String (Option ℚ) :=
  match pyGet row k with
  | .null => .ok none
  | v =>
      match pyFloat v with
      | some q => .ok (some q)
      | none => .error "ValueError"

/-- `_normalize_points` (timeseries service): drop rows missing `t`,
convert `t` from epoch milliseconds to a UTC timestamp, coerce the
OHLCV fields; no re-sorting. Raises when a present field fails
coercion. -/
def _normalize_points : List (List (String × JVal)) → Except String (List TimeSeriesPoint)
  | [] => .ok []
  | row :: rest =>
      match pyGet row "t" with
      | .null => _normalize_points rest
      | tv => do
          let ts ← tsOfMs tv
          let o ← fieldFloat row "o"
          let h ← fieldFloat row "h"
          let l ← fieldFloat row "l"
          let c ← fieldFloat row "c"
          let v ← fieldFloat row "v"
          let pts ← _normalize_points rest
          pure (⟨ts, o, h, l, c, v⟩ :: pts)

/-- The value a present OHLCV field contributes when its coercion
succeeds (and `none` when the field is absent or null). -/
def optField (row : List (String × JVal)) (k : String) : Option ℚ :=
  match pyGet row k with
  | .null => none
  | v => pyFloat v

/-- Is this field value absent/null or numerically coercible? -/
def coercibleField (row : List (String × JVal)) (k : String) : Bool :=
  match pyGet row k with
  | .null => true
  | v => (pyFloat v).isSome

/-- A row on which `_normalize_points` does not raise: either `t` is
missing (the row is dropped before any field is touched) or `t` is a
number/bool and every OHLCV field is absent or coercible. -/
def rowGood (row : List (String × JVal)) : Bool :=
  match pyGet row "t" with
  | .null => true
  | .num _ => coercibleField row "o" && coercibleField row "h" && coercibleField row "l" &&
      coercibleField row "c" && coercibleField row "v"
  | .bool _ => coercibleField row "o" && coercibleField row "h" && coercibleField row "l" &&
      coercibleField row "c" && coercibleField row "v"
  | _ => false

/-- The point a good row normalizes to; `none` exactly when the row is
missing `t`. -/
def rowPoint (row : List (String × JVal)) : Option TimeSeriesPoint :=
  match pyGet row "t" with
  | .null => none
  | tv =>
      some ⟨(match tv with
             | .num q => q / 1000
             | .bool b => (if b then (1 : ℚ) else 0) / 1000
             | _ => 0),
            optField row "o", optField row "h", optField row "l",
            optField row "c", optField row "v"⟩

/-- The fields declared on `Settings` in `app/core/config.py`. With
`extra="ignore"` no other attribute exists on the settings object; in
particular there is no `polygon_api_key`, `polygon_api_key_2` or
`polygon_base_url` field. -/
def settingsFields : List String :=
  ["app_name", "version", "api_prefix", "alphavantage_api_key", "browser_use_api_key"]

/-- Python `getattr(settings, name)`: pydantic raises `AttributeError`
for an undeclared field; a declared field returns its value, supplied
here by an environment function from field name to value. -/
def settingsAttr (env : String → JVal) (name : String) : Except String JVal :=
  if name ∈ settingsFields then .ok (env name) else .error "AttributeError"

/-- The missing-key path of `GET /timeseries/{symbol}`: the service
guard `if not settings.polygon_api_key` evaluates the attribute first;
the router maps a `ValueError` (the configuration message naming the
key) to HTTP 400 and any other exception to the generic HTTP 502
gateway failure. `.ok ()` means the guard passed. -/
def timeseries_key_guard_status (env : String → JVal) : Except ℕ Unit :=
  match settingsAttr env "polygon_api_key" with
  | .error _ => .error 502
  | .ok v => if v.truthy then .ok () else .error 400

/-- `(y, m, d)` strictly earlier than `(y', m', d')` (chronological
order on parsed dates). -/
def dateLt (a b : ℕ × ℕ × ℕ) : Prop :=
  a.1 < b.1 ∨ (a.1 = b.1 ∧ (a.2.1 < b.2.1 ∨ (a.2.1 = b.2.1 ∧ a.2.2 < b.2.2)))

/-- Modelled from the spec: parse an ISO `YYYY-MM-DD` date-string key
of the date-keyed daily series as a `(year, month, day)` triple;
`none` when the key is not of that form. -/
def parseDate (s : String) : Option (ℕ × ℕ × ℕ) :=
  match s.data with
  | [y1, y2, y3, y4, '-', m1, m2, '-', d1, d2] =>
      if [y1, y2, y3, y4].all Char.isDigit && [m1, m2].all Char.isDigit &&
          [d1, d2].all Char.isDigit then
        some (foldDigits [y1, y2, y3, y4], foldDigits [m1, m2], foldDigits [d1, d2])
      else none
  | _ => none

/-- One normalized point of the date-string-keyed daily series: its
key, the parsed (UTC midnight) date, and the raw record. -/
structure DailyPoint where
  key : String
  date : ℕ × ℕ × ℕ
  fields : JVal

/-- Modelled from the spec: the date-string-keyed daily-series
normalizer (the second time-series provider adapter described in the
spec) is not present under `src/`. Per the spec's words: the series
keys are sorted ascending lexicographically, truncated to the last `N`
keys when a positive limit `N` is given, each key is parsed as a UTC
midnight date, and a key that fails date parsing is silently skipped
without aborting the batch. -/
def normalize_date_series (series : List (String × JVal)) (limit : ℤ) : List DailyPoint :=
  let keys := (series.map Prod.fst).mergeSort (fun a b => decide (a ≤ b))
  let kept := if 0 < limit then keys.drop (keys.length - limit.toNat) else keys
  kept.filterMap (fun k => (parseDate k).map (fun d => ⟨k, d, pyGet series k⟩))

theorem specTraverse_eq_get_path (p : List String) (d : JVal) :
    specTraverse d p = if (_get_path d p).isNull then none else some (_get_path d p) := by
  induction p generalizing d with
  | nil => simp [specTraverse, _get_path]
  | cons k ks ih =>
      cases d with
      | obj fields =>
          simp only [specTraverse, _get_path]
          cases List.lookup k fields with
          | none => simp [JVal.isNull]
          | some v => simp [ih v]
      | null => simp [specTraverse, _get_path, JVal.isNull]
      | bool b => simp [specTraverse, _get_path, JVal.isNull]
      | num q => simp [specTraverse, _get_path, JVal.isNull]
      | str s => simp [specTraverse, _get_path, JVal.isNull]
      | arr l => simp [specTraverse, _get_path, JVal.isNull]

theorem pick_first_eq_findSome (d : JVal) (cands : List (List String)) :
    _pick_first d cands = (List.findSome? (specTraverse d) cands).bind _coerce_float := by
  induction cands with
  | nil => simp [_pick_first, List.findSome?]
  | cons p ps ih =>
      rw [List.findSome?_cons, specTraverse_eq_get_path]
      cases h : _get_path d p with
      | null => simp only [_pick_first, h, JVal.isNull]; simpa using ih
      | bool b => simp [_pick_first, h, JVal.isNull]
      | num q => simp [_pick_first, h, JVal.isNull]
      | str s => simp [_pick_first, h, JVal.isNull]
      | arr l => simp [_pick_first, h, JVal.isNull]
      | obj l => simp [_pick_first, h, JVal.isNull]

/-- C1: the revision-signal derivation: fewer than 2 values gives
`revised=false` with all other fields null; at least 2 values gives
`revised=true`, `first` the first element, `last` the last element,
`delta = last - first` exactly, and `sign` `"good"`/`"bad"`/`"flat"`
according to `last > first` / `last < first` / `last = first`. -/
theorem revision_signal_spec (values : List ℚ) :
    (values.length < 2 → _revision_signal values = ⟨false, none, none, none, none⟩) ∧
    (∀ f l, values.head? = some f → values.getLast? = some l → 2 ≤ values.length →
      _revision_signal values =
        ⟨true, some f, some l, some (l - f),
          some (if f < l then "good" else if l < f then "bad" else "flat")⟩) := by
  constructor
  · intro h
    rw [_revision_signal, if_neg (by omega)]
  · intro f l hf hl hlen
    have hl' : values.getLastI = l := by
      rw [List.getLastI_eq_getLast?, hl]
    cases values with
    | nil => simp at hf
    | cons v rest =>
        have hv : v = f := by simpa using hf
        subst hv
        rw [_revision_signal, if_pos hlen]
        simp [hl']

/-- Witness for C1 at the concrete inputs `[1, 3]` and `[5]`. -/
theorem revision_signal_spec_witness :
    _revision_signal [(1 : ℚ), 3] = ⟨true, some 1, some 3, some 2, some "good"⟩ ∧
    _revision_signal [(5 : ℚ)] = ⟨false, none, none, none, none⟩ := by
  constructor
  · have h := (revision_signal_spec [(1 : ℚ), 3]).2 1 3 rfl rfl (by decide)
    rw [h]; norm_num
  · exact (revision_signal_spec [(5 : ℚ)]).1 (by decide)

/-- C2: the schema-probing extractor returns the coerced value at the
first candidate path (in list order) whose full traversal succeeds
(every intermediate key present and mapping to a sub-mapping, terminal
value present and non-null), and `none` when no path succeeds; a
terminal `0` is present and coerces to `0`, never `none`; and the
numeric coercion yields `none` (never raising) on `None`, on the empty
string, and on any value whose numeric conversion fails. -/
theorem pick_first_coerce_spec :
    (∀ d cands, _pick_first d cands =
      (List.findSome? (specTraverse d) cands).bind _coerce_float) ∧
    (∀ d cands, List.findSome? (specTraverse d) cands = none → _pick_first d cands = none) ∧
    (∀ q : ℚ, _coerce_float (.num q) = some q) ∧
    (_coerce_float (.num 0) = some 0) ∧
    (_coerce_float .null = none) ∧
    (_coerce_float (.str "") = none) ∧
    (∀ v, pyFloat v = none → _coerce_float v = none) := by
  refine ⟨pick_first_eq_findSome, ?_, fun q => rfl, rfl, rfl, rfl, ?_⟩
  · intro d cands h
    rw [pick_first_eq_findSome, h]
    rfl
  · intro v h
    cases v with
    | null => rfl
    | str s =>
        by_cases hs : s = ""
        · subst hs; rfl
        · simpa [_coerce_float, hs] using h
    | bool b => simpa [_coerce_float] using h
    | num q => simpa [_coerce_float] using h
    | arr l => rfl
    | obj l => rfl

/-- Witness for C2: probing an empty mapping yields `none`, and
coercing a list (numeric conversion failure) yields `none`. -/
theorem pick_first_coerce_spec_witness :
    _pick_first (JVal.obj []) [["x"]] = none ∧ _coerce_float (JVal.arr []) = none :=
  ⟨pick_first_coerce_spec.2.1 (JVal.obj []) [["x"]] rfl,
   pick_first_coerce_spec.2.2.2.2.2.2 (JVal.arr []) rfl⟩

theorem filterMap_filter_of_none {α β : Type} (p : α → Bool) (f : α → Option β)
    (h : ∀ x, p x = false → f x = none) :
    ∀ l : List α, (l.filter p).filterMap f = l.filterMap f := by
  intro l
  induction l with
  | nil => rfl
  | cons x xs ih =>
      by_cases hp : p x = true
      · simp [List.filter_cons, hp, List.filterMap_cons, ih]
      · have hp' : p x = false := by simpa using hp
        simp [List.filter_cons, hp', h x hp', List.filterMap_cons, ih]

/-- C4 counterexample: a numeric `fiscalDateEnding` is passed through
raw to the pydantic `Optional[str]` field, whose validation raises, so
the estimate-node normalizer does not return for every mapping. -/
theorem parse_estimate_node_counterexample :
    _parse_estimate_node [("fiscalDateEnding", JVal.num 123)] "annual" =
      .error "ValidationError" := rfl

/-- C4 (amended): the estimate-node normalizer returns an
`EstimatePoint` whenever the extracted fiscal-date and quarter values
validate as optional strings (a non-string extracted value instead
fails pydantic validation), the fiscal date and quarter are passed
through as extracted without coercion, a revision node that is neither
a list nor a dict extracts no values, non-dict snapshots inside a list
revision node contribute nothing, and an empty extraction yields
`revised=false`. -/
theorem parse_estimate_node_safety :
    (∀ node period f q,
        validateOptStr (_pick_first_raw (JVal.obj node)
          [["fiscalDateEnding"], ["fiscal_date_ending"], ["fiscal_date"]]) = .ok f →
        validateOptStr (_pick_first_raw (JVal.obj node)
          [["quarter"], ["fiscalQuarterEnding"]]) = .ok q →
        ∃ pt, _parse_estimate_node node period = .ok pt ∧ pt.period = period ∧
          pt.fiscal_date_ending = f ∧ pt.quarter = q ∧
          pt.eps_revision = _revision_signal (_extract_revision_values (revNodeOf node) "eps") ∧
          pt.revenue_revision =
            _revision_signal (_extract_revision_values (revNodeOf node) "revenue")) ∧
    (∀ v kind, v.isArr = false → v.isObj = false → _extract_revision_values v kind = []) ∧
    (∀ snaps kind, _extract_revision_values (JVal.arr snaps) kind =
        _extract_revision_values (JVal.arr (snaps.filter JVal.isObj)) kind) ∧
    (∀ node period pt, _parse_estimate_node node period = .ok pt →
        _extract_revision_values (revNodeOf node) "eps" = [] →
        pt.eps_revision.revised = false) ∧
    (_revision_signal [] = ⟨false, none, none, none, none⟩) := by
  refine ⟨?_, ?_, ?_, ?_, rfl⟩
  · intro node period f q hf hq
    simp only [_parse_estimate_node]
    rw [hf, hq]
    exact ⟨_, rfl, rfl, rfl, rfl, rfl, rfl⟩
  · intro v kind h1 h2
    cases v with
    | null => rfl
    | bool b => rfl
    | num q => rfl
    | str s => rfl
    | arr l => simp [JVal.isArr] at h1
    | obj l => simp [JVal.isObj] at h2
  · intro snaps kind
    simp only [_extract_revision_values]
    rw [filterMap_filter_of_none]
    intro x hx
    cases x with
    | obj l => simp [JVal.isObj] at hx
    | null => rfl
    | bool b => rfl
    | num q => rfl
    | str s => rfl
    | arr l => rfl
  · intro node period pt h hempty
    simp only [_parse_estimate_node] at h
    split at h
    · injection h with h1
      subst h1
      simp only [hempty]
      rfl
    · exact absurd h (by simp)
    · exact absurd h (by simp)

/-- Witness for C4: a node whose fiscal date is the string
`"2025-01-01"` parses, with the date passed through verbatim. -/
theorem parse_estimate_node_safety_witness :
    ∃ pt, _parse_estimate_node [("fiscalDateEnding", JVal.str "2025-01-01")] "annual" = .ok pt ∧
      pt.period = "annual" ∧ pt.fiscal_date_ending = some "2025-01-01" ∧ pt.quarter = none ∧
      pt.eps_revision = _revision_signal (_extract_revision_values
        (revNodeOf [("fiscalDateEnding", JVal.str "2025-01-01")]) "eps") ∧
      pt.revenue_revision = _revision_signal (_extract_revision_values
        (revNodeOf [("fiscalDateEnding", JVal.str "2025-01-01")]) "revenue") :=
  parse_estimate_node_safety.1 [("fiscalDateEnding", JVal.str "2025-01-01")] "annual"
    (some "2025-01-01") none rfl rfl

/-- C5 counterexample: a payload whose only annual list sits under
`data.annual_estimates` does not yield that list — the nested probe
skips the snake_case variant, so the resolver returns `[]`. -/
theorem pluck_lists_counterexample :
    (_pluck_lists [("data", JVal.obj [("annual_estimates", JVal.arr [JVal.obj []])])]).1 ≠
      [JVal.obj []] := by
  have h : (_pluck_lists [("data", JVal.obj [("annual_estimates", JVal.arr [JVal.obj []])])]).1
      = [] := rfl
  rw [h]
  simp

/-- C5 (amended): the list-pluck resolver probes the top-level variant
keys (`annualEarningsEstimates`/`annual_estimates`/`annual` and the
quarterly analogues); when a slot is still empty it probes a nested
`data`/`estimates` dict but only for the `annualEarningsEstimates` and
`annual` variants (quarterly analogues likewise) — the nested
snake_case `_estimates` variants are not probed and yield `[]`; a
located non-list value yields `[]`; and a payload with no recognized
key yields `([], [])`. -/
theorem pluck_lists_spec :
    (∀ l : List JVal, _pluck_lists [("annualEarningsEstimates", JVal.arr l)] = (l, [])) ∧
    (∀ l : List JVal, _pluck_lists [("annual_estimates", JVal.arr l)] = (l, [])) ∧
    (∀ l : List JVal, _pluck_lists [("annual", JVal.arr l)] = (l, [])) ∧
    (∀ l : List JVal, _pluck_lists [("quarterlyEarningsEstimates", JVal.arr l)] = ([], l)) ∧
    (∀ l : List JVal, _pluck_lists [("quarterly_estimates", JVal.arr l)] = ([], l)) ∧
    (∀ l : List JVal, _pluck_lists [("quarterly", JVal.arr l)] = ([], l)) ∧
    (∀ l : List JVal, _pluck_lists [("data", JVal.obj [("annual", JVal.arr l)])] = (l, [])) ∧
    (∀ l : List JVal,
      _pluck_lists [("data", JVal.obj [("annualEarningsEstimates", JVal.arr l)])] = (l, [])) ∧
    (∀ l : List JVal,
      _pluck_lists [("estimates", JVal.obj [("quarterly", JVal.arr l)])] = ([], l)) ∧
    (∀ l : List JVal,
      _pluck_lists [("data", JVal.obj [("annual_estimates", JVal.arr l)])] = ([], [])) ∧
    (∀ fs, _pluck_lists [("annualEarningsEstimates", JVal.obj fs)] = ([], [])) ∧
    (_pluck_lists [] = ([], [])) := by
  refine ⟨?_, ?_, ?_, ?_, ?_, ?_, ?_, ?_, ?_, ?_, ?_, rfl⟩ <;>
    intro l <;> cases l <;> rfl

theorem exceptMapM_ok_length {α β : Type} (f : α → Except String β) :
    ∀ (l : List α) (out : List β), l.mapM f = .ok out → out.length = l.length := by
  intro l
  induction l with
  | nil =>
      intro out h
      simp only [List.mapM_nil] at h
      cases h
      rfl
  | cons x xs ih =>
      intro out h
      rw [List.mapM_cons] at h
      cases hx : f x with
      | error e => rw [hx] at h; simp [Bind.bind, Except.bind] at h
      | ok y =>
          rw [hx] at h
          cases hxs : xs.mapM f with
          | error e =>
              rw [hxs] at h
              simp [Bind.bind, Except.bind, Pure.pure, Except.pure] at h
          | ok ys =>
              rw [hxs] at h
              simp only [Bind.bind, Except.bind, Pure.pure, Except.pure] at h
              cases h
              simp [ih ys hxs]

theorem exceptMapM_ok_mem {α β : Type} (f : α → Except String β) :
    ∀ (l : List α) (out : List β), l.mapM f = .ok out →
      ∀ y ∈ out, ∃ x ∈ l, f x = .ok y := by
  intro l
  induction l with
  | nil =>
      intro out h
      simp only [List.mapM_nil] at h
      cases h
      simp
  | cons x xs ih =>
      intro out h
      rw [List.mapM_cons] at h
      cases hx : f x with
      | error e => rw [hx] at h; simp [Bind.bind, Except.bind] at h
      | ok y =>
          rw [hx] at h
          cases hxs : xs.mapM f with
          | error e =>
              rw [hxs] at h
              simp [Bind.bind, Except.bind, Pure.pure, Except.pure] at h
          | ok ys =>
              rw [hxs] at h
              simp only [Bind.bind, Except.bind, Pure.pure, Except.pure] at h
              cases h
              intro z hz
              rcases List.mem_cons.mp hz with hz | hz
              · exact ⟨x, List.mem_cons_self x xs, hz ▸ hx⟩
              · obtain ⟨w, hw, hfw⟩ := ih ys hxs z hz
                exact ⟨w, List.mem_cons_of_mem x hw, hfw⟩

theorem parseNodeJ_period (n : JVal) (period : String) (pt : EstimatePoint)
    (h : parseNodeJ n period = .ok pt) : pt.period = period := by
  cases n with
  | obj fields =>
      simp only [parseNodeJ, _parse_estimate_node] at h
      split at h
      · injection h with h1
        subst h1
        rfl
      · exact absurd h (by simp)
      · exact absurd h (by simp)
  | null => simp [parseNodeJ] at h
  | bool b => simp [parseNodeJ] at h
  | num q => simp [parseNodeJ] at h
  | str s => simp [parseNodeJ] at h
  | arr l => simp [parseNodeJ] at h

/-- C10: with `period="both"`, the estimates route returns at most
`limit` annual points followed by at most `limit` quarterly points:
each group is parsed from the head of its provider list in provider
order, every annual-tagged point precedes every quarterly-tagged one,
each point carries its own period tag, and the total length is at most
`2 * limit`. -/
theorem assemble_points_both_spec (annual_list quarterly_list : List JVal) (limit : ℕ)
    (pts : List EstimatePoint)
    (h : assemble_points annual_list quarterly_list "both" limit = .ok pts) :
    ∃ a q, pts = a ++ q ∧
      (annual_list.take limit).mapM (fun n => parseNodeJ n "annual") = .ok a ∧
      (quarterly_list.take limit).mapM (fun n => parseNodeJ n "quarterly") = .ok q ∧
      a.length = min limit annual_list.length ∧ a.length ≤ limit ∧
      q.length = min limit quarterly_list.length ∧ q.length ≤ limit ∧
      (∀ p ∈ a, p.period = "annual") ∧
      (∀ p ∈ q, p.period = "quarterly") ∧
      pts.length ≤ 2 * limit := by
  simp only [assemble_points, if_pos (Or.inr rfl)] at h
  split at h
  next a q ha hq =>
      injection h with h1
      have hlena : a.length = min limit annual_list.length := by
        rw [exceptMapM_ok_length _ _ _ ha, List.length_take]
      have hlenq : q.length = min limit quarterly_list.length := by
        rw [exceptMapM_ok_length _ _ _ hq, List.length_take]
      refine ⟨a, q, h1.symm, ha, hq, hlena, ?_, hlenq, ?_, ?_, ?_, ?_⟩
      · rw [hlena]; exact Nat.min_le_left _ _
      · rw [hlenq]; exact Nat.min_le_left _ _
      · intro p hp
        obtain ⟨n, _, hn⟩ := exceptMapM_ok_mem _ _ _ ha p hp
        exact parseNodeJ_period n "annual" p hn
      · intro p hp
        obtain ⟨n, _, hn⟩ := exceptMapM_ok_mem _ _ _ hq p hp
        exact parseNodeJ_period n "quarterly" p hn
      · rw [← h1, List.length_append, hlena, hlenq]
        have := Nat.min_le_left limit annual_list.length
        have := Nat.min_le_left limit quarterly_list.length
        omega
  next e _ _ => exact absurd h (by simp)
  next e _ _ _ => exact absurd h (by simp)

/-- Witness for C10 at two singleton provider lists and `limit = 1`. -/
theorem assemble_points_both_spec_witness :
    ∃ a q, [emptyPoint "annual", emptyPoint "quarterly"] = a ++ q ∧
      (List.take 1 [JVal.obj []]).mapM (fun n => parseNodeJ n "annual") = .ok a ∧
      (List.take 1 [JVal.obj []]).mapM (fun n => parseNodeJ n "quarterly") = .ok q ∧
      a.length = min 1 [JVal.obj []].length ∧ a.length ≤ 1 ∧
      q.length = min 1 [JVal.obj []].length ∧ q.length ≤ 1 ∧
      (∀ p ∈ a, p.period = "annual") ∧
      (∀ p ∈ q, p.period = "quarterly") ∧
      [emptyPoint "annual", emptyPoint "quarterly"].length ≤ 2 * 1 :=
  assemble_points_both_spec [JVal.obj []] [JVal.obj []] 1
    [emptyPoint "annual", emptyPoint "quarterly"] rfl

/-- C6 counterexample: for a throttled response the emitted item's
`article_count` serializes as the number `0`, not as null — the field
is a non-optional integer, so "all numeric fields null" fails. -/
theorem sentiment_throttled_counterexample :
    processTicker "IBM" [("Note", JVal.str "rate limit")] (7 / 100) none =
      .ok ⟨"IBM", 0, none, none, none⟩ ∧
    List.lookup "article_count" (SentimentItem.toJson ⟨"IBM", 0, none, none, none⟩) ≠
      some JVal.null := by
  refine ⟨rfl, ?_⟩
  have h : List.lookup "article_count" (SentimentItem.toJson ⟨"IBM", 0, none, none, none⟩) =
      some (JVal.num 0) := rfl
  rw [h]
  simp

/-- C6 (amended): a ticker whose provider response carries an
`Information`/`Note` marker yields the item with `avg_sentiment`,
`label` and `good` null and `article_count = 0`; the other tickers'
items are computed from their own responses, and the output preserves
input order. -/
theorem sentiment_throttled_spec (pre post : List (String × List (String × JVal)))
    (ticker : String) (data : List (String × JVal)) (thr : ℚ) (mr : Option ℚ)
    (xs ys : List SentimentItem)
    (hmark : (pyHasKey data "Information" || pyHasKey data "Note") = true)
    (hpre : processTickers pre thr mr = .ok xs)
    (hpost : processTickers post thr mr = .ok ys) :
    processTickers (pre ++ (ticker, data) :: post) thr mr =
      .ok (xs ++ ⟨ticker, 0, none, none, none⟩ :: ys) := by
  induction pre generalizing xs with
  | nil =>
      simp only [processTickers, List.mapM_nil] at hpre
      cases hpre
      simp only [processTickers] at hpost ⊢
      simp only [List.nil_append, List.mapM_cons]
      have hthis : processTicker ticker data thr mr = .ok ⟨ticker, 0, none, none, none⟩ := by
        simp [processTicker, hmark]
      rw [hthis]
      simp only [Bind.bind, Except.bind]
      rw [hpost]
      rfl
  | cons p pre' ih =>
      simp only [processTickers] at hpre ⊢
      simp only [List.mapM_cons] at hpre
      simp only [List.cons_append, List.mapM_cons]
      cases hp : processTicker p.1 p.2 thr mr with
      | error e => rw [hp] at hpre; simp [Bind.bind, Except.bind] at hpre
      | ok y =>
          rw [hp] at hpre
          cases hrest : List.mapM (fun p => processTicker p.1 p.2 thr mr) pre' with
          | error e =>
              rw [hrest] at hpre
              simp [Bind.bind, Except.bind, Pure.pure, Except.pure] at hpre
          | ok xs' =>
              rw [hrest] at hpre
              simp only [Bind.bind, Except.bind, Pure.pure, Except.pure] at hpre
              cases hpre
              have hih := ih xs' (by simp only [processTickers]; exact hrest)
              simp only [processTickers] at hih
              simp only [Bind.bind, Except.bind]
              rw [hih]
              rfl

/-- Witness for C6: one good ticker, one throttled, one good. -/
theorem sentiment_throttled_spec_witness :
    processTickers
        [("A", [("feed", JVal.arr [])]), ("B", [("Note", JVal.str "limit")]),
         ("C", [("feed", JVal.arr [])])] (7 / 100) none =
      .ok [⟨"A", 0, none, none, some false⟩, ⟨"B", 0, none, none, none⟩,
           ⟨"C", 0, none, none, some false⟩] :=
  sentiment_throttled_spec [("A", [("feed", JVal.arr [])])] [("C", [("feed", JVal.arr [])])]
    "B" [("Note", JVal.str "limit")] (7 / 100) none
    [⟨"A", 0, none, none, some false⟩] [⟨"C", 0, none, none, some false⟩] rfl rfl rfl

/-- C7: for a successfully-queried ticker (no throttling marker, feed
scanned without raising): `avg_sentiment` is the arithmetic mean of the
matched scores and null when none matched; `label` is Positive/
Negative/Neutral by the sign of the average and null without one;
`good` is true iff an average exists and is at least the threshold;
and `article_count` counts the feed's articles, independent of how
many sentiment entries matched or survived the relevance filter. -/
theorem label_from_score_some (a : ℚ) :
    _label_from_score (some a) =
      some (if 0 < a then "Positive" else if a < 0 then "Negative" else "Neutral") := by
  by_cases h1 : 0 < a
  · simp [_label_from_score, h1]
  · by_cases h2 : a < 0
    · simp [_label_from_score, h1, h2]
    · simp [_label_from_score, h1, h2]

theorem sentiment_success_spec (ticker : String) (data : List (String × JVal)) (thr : ℚ)
    (mr : Option ℚ) (feed : List JVal) (scoreLists : List (List ℚ))
    (hm : (pyHasKey data "Information" || pyHasKey data "Note") = false)
    (hf : seqOrErr (pyGet data "feed") = .ok feed)
    (hs : feed.mapM (articleScores ticker mr) = .ok scoreLists) :
    ∃ it, processTicker ticker data thr mr = .ok it ∧
      it.ticker = ticker ∧
      it.article_count = feed.length ∧
      (scoreLists.flatten = [] → it.avg_sentiment = none ∧ it.label = none ∧
        it.good = some false) ∧
      (scoreLists.flatten ≠ [] →
        it.avg_sentiment = some (scoreLists.flatten.sum / (scoreLists.flatten.length : ℚ))) ∧
      (∀ a, it.avg_sentiment = some a →
        it.label = some (if 0 < a then "Positive" else if a < 0 then "Negative" else "Neutral")) ∧
      (it.good = some true ↔ ∃ a, it.avg_sentiment = some a ∧ thr ≤ a) := by
  have hrun : processTicker ticker data thr mr =
      .ok ⟨ticker, feed.length,
        (if scoreLists.flatten.isEmpty then none
         else some (scoreLists.flatten.sum / (scoreLists.flatten.length : ℚ))),
        _label_from_score (if scoreLists.flatten.isEmpty then none
         else some (scoreLists.flatten.sum / (scoreLists.flatten.length : ℚ))),
        some (match (if scoreLists.flatten.isEmpty then none
              else some (scoreLists.flatten.sum / (scoreLists.flatten.length : ℚ))) with
              | none => false
              | some a => decide (thr ≤ a))⟩ := by
    simp only [processTicker, hm, Bool.false_eq_true, if_false]
    rw [hf]
    simp only [Bind.bind, Except.bind]
    rw [hs]
    rfl
  refine ⟨_, hrun, rfl, rfl, ?_, ?_, ?_, ?_⟩
  · intro hempty
    simp [hempty, _label_from_score]
  · intro hne
    simp [List.isEmpty_iff, hne]
  · intro a ha
    by_cases hemp : scoreLists.flatten.isEmpty
    · simp [hemp] at ha
    · simp only [hemp, if_false] at ha ⊢
      cases ha
      exact label_from_score_some _
  · by_cases hemp : scoreLists.flatten.isEmpty
    · simp [hemp]
    · simp [hemp]

/-- Witness for C7: one feed article with one matching entry at score
`1/10` under threshold `7/100`: average `1/10`, label Positive,
`good=true`, `article_count=1`. -/
theorem sentiment_success_spec_witness :
    ∃ it, processTicker "AAPL"
        [("feed", JVal.arr [JVal.obj [("ticker_sentiment", JVal.arr
          [JVal.obj [("ticker", JVal.str "AAPL"),
                     ("ticker_sentiment_score", JVal.num (1 / 10))]])]])]
        (7 / 100) none = .ok it ∧
      it.ticker = "AAPL" ∧
      it.article_count = [JVal.obj [("ticker_sentiment", JVal.arr
          [JVal.obj [("ticker", JVal.str "AAPL"),
                     ("ticker_sentiment_score", JVal.num (1 / 10))]])]].length ∧
      (([[(1 : ℚ) / 10]] : List (List ℚ)).flatten = [] → it.avg_sentiment = none ∧
        it.label = none ∧ it.good = some false) ∧
      (([[(1 : ℚ) / 10]] : List (List ℚ)).flatten ≠ [] →
        it.avg_sentiment = some (([[(1 : ℚ) / 10]] : List (List ℚ)).flatten.sum /
          ((([[(1 : ℚ) / 10]] : List (List ℚ)).flatten.length : ℚ)))) ∧
      (∀ a, it.avg_sentiment = some a →
        it.label = some (if 0 < a then "Positive" else if a < 0 then "Negative" else "Neutral")) ∧
      (it.good = some true ↔ ∃ a, it.avg_sentiment = some a ∧ (7 : ℚ) / 100 ≤ a) :=
  sentiment_success_spec "AAPL"
    [("feed", JVal.arr [JVal.obj [("ticker_sentiment", JVal.arr
      [JVal.obj [("ticker", JVal.str "AAPL"),
                 ("ticker_sentiment_score", JVal.num (1 / 10))]])]])]
    (7 / 100) none
    [JVal.obj [("ticker_sentiment", JVal.arr
      [JVal.obj [("ticker", JVal.str "AAPL"),
                 ("ticker_sentiment_score", JVal.num (1 / 10))]])]]
    [[1 / 10]] rfl rfl rfl

theorem fieldFloat_of_coercible (row : List (String × JVal)) (k : String)
    (h : coercibleField row k = true) : fieldFloat row k = .ok (optField row k) := by
  cases hv : pyGet row k with
  | null => simp [fieldFloat, optField, hv]
  | bool b => simp [fieldFloat, optField, hv, pyFloat]
  | num q => simp [fieldFloat, optField, hv, pyFloat]
  | str s =>
      have h' : (pyFloat (JVal.str s)).isSome = true := by
        simpa [coercibleField, hv] using h
      obtain ⟨q, hq⟩ := Option.isSome_iff_exists.mp h'
      simp [fieldFloat, optField, hv, hq]
  | arr l => exact absurd h (by simp [coercibleField, hv, pyFloat])
  | obj l => exact absurd h (by simp [coercibleField, hv, pyFloat])

theorem rowPoint_isSome (row : List (String × JVal)) :
    (rowPoint row).isSome = !(pyGet row "t").isNull := by
  cases ht : pyGet row "t" <;> simp [rowPoint, ht, JVal.isNull]

theorem rowPoint_length (rows : List (List (String × JVal))) :
    (rows.filterMap rowPoint).length =
      rows.length - rows.countP (fun row => (pyGet row "t").isNull) := by
  induction rows with
  | nil => rfl
  | cons row rest ih =>
      have hcle := List.countP_le_length (p := fun row => (pyGet row "t").isNull) (l := rest)
      have hpoint := rowPoint_isSome row
      rw [List.filterMap_cons, List.countP_cons]
      cases hpt : rowPoint row with
      | none =>
          have hnull : (pyGet row "t").isNull = true := by
            rw [hpt] at hpoint
            cases hx : (pyGet row "t").isNull
            · rw [hx] at hpoint; simp at hpoint
            · rfl
          rw [if_pos hnull]
          simp only [List.length_cons, ih]
          omega
      | some pt =>
          have hnull : (pyGet row "t").isNull = false := by
            rw [hpt] at hpoint
            cases hx : (pyGet row "t").isNull
            · rfl
            · rw [hx] at hpoint; simp at hpoint
          rw [if_neg (by simp [hnull])]
          simp only [List.length_cons, List.length_cons, ih]
          omega

/-- C3 counterexample: a present OHLCV field whose numeric coercion
fails does not degrade to `None` — the unguarded `float()` call raises
and the whole normalization fails. -/
theorem normalize_points_counterexample :
    _normalize_points [[("t", JVal.num 1000), ("o", JVal.str "abc")]] = .error "ValueError" := by
  have habc : pyFloat (JVal.str "abc") = none := by decide
  have ht : pyGet [("t", JVal.num 1000), ("o", JVal.str "abc")] "t" = JVal.num 1000 := rfl
  have ho : pyGet [("t", JVal.num 1000), ("o", JVal.str "abc")] "o" = JVal.str "abc" := rfl
  simp only [_normalize_points, ht, tsOfMs, fieldFloat, ho, habc, Bind.bind, Except.bind]

/-- C3 (amended): on rows whose present fields are all coercible, the
normalizer drops exactly the rows missing `t`, keeps the remaining rows
in their original order (output = an order-preserving `filterMap`),
the output length is the input length minus the number of rows missing
`t`, and an absent or null OHLCV field yields `None` for that field
only; a present non-coercible field instead raises for the whole
batch. -/
theorem normalize_points_spec (rows : List (List (String × JVal)))
    (hgood : ∀ row ∈ rows, rowGood row = true) :
    _normalize_points rows = .ok (rows.filterMap rowPoint) ∧
    (rows.filterMap rowPoint).length =
      rows.length - rows.countP (fun row => (pyGet row "t").isNull) ∧
    (∀ row, (pyGet row "t").isNull = true → rowPoint row = none) ∧
    (∀ row k, pyGet row k = .null → optField row k = none) := by
  refine ⟨?_, rowPoint_length rows, ?_, ?_⟩
  · induction rows with
    | nil => rfl
    | cons row rest ih =>
        have hrow := hgood row (List.mem_cons_self row rest)
        have hrest := ih (fun r hr => hgood r (List.mem_cons_of_mem row hr))
        rw [List.filterMap_cons]
        cases ht : pyGet row "t" with
        | null =>
            simp only [_normalize_points, ht, rowPoint]
            exact hrest
        | num q =>
            simp only [rowGood, ht] at hrow
            obtain ⟨⟨⟨⟨ho, hh⟩, hl⟩, hc⟩, hv⟩ := by simpa [Bool.and_eq_true] using hrow
            simp only [_normalize_points, ht, tsOfMs, rowPoint,
              fieldFloat_of_coercible row "o" ho, fieldFloat_of_coercible row "h" hh,
              fieldFloat_of_coercible row "l" hl, fieldFloat_of_coercible row "c" hc,
              fieldFloat_of_coercible row "v" hv]
            simp only [Bind.bind, Except.bind]
            rw [hrest]
            rfl
        | bool b =>
            simp only [rowGood, ht] at hrow
            obtain ⟨⟨⟨⟨ho, hh⟩, hl⟩, hc⟩, hv⟩ := by simpa [Bool.and_eq_true] using hrow
            simp only [_normalize_points, ht, tsOfMs, rowPoint,
              fieldFloat_of_coercible row "o" ho, fieldFloat_of_coercible row "h" hh,
              fieldFloat_of_coercible row "l" hl, fieldFloat_of_coercible row "c" hc,
              fieldFloat_of_coercible row "v" hv]
            simp only [Bind.bind, Except.bind]
            rw [hrest]
            rfl
        | str s => simp [rowGood, ht] at hrow
        | arr l => simp [rowGood, ht] at hrow
        | obj l => simp [rowGood, ht] at hrow
  · intro row ht
    cases hv : pyGet row "t" with
    | null => simp [rowPoint, hv]
    | bool b => rw [hv] at ht; simp [JVal.isNull] at ht
    | num q => rw [hv] at ht; simp [JVal.isNull] at ht
    | str s => rw [hv] at ht; simp [JVal.isNull] at ht
    | arr l => rw [hv] at ht; simp [JVal.isNull] at ht
    | obj l => rw [hv] at ht; simp [JVal.isNull] at ht
  · intro row k hk
    simp [optField, hk]

/-- Witness for C3: one full row, one row missing `t` (dropped), one
row with a null close field (kept, `close=None`). -/
theorem normalize_points_spec_witness :
    _normalize_points
        [[("t", JVal.num 1000), ("o", JVal.num 5)],
         [("o", JVal.num 7)],
         [("t", JVal.num 2000), ("c", JVal.null)]] =
      .ok ([[("t", JVal.num 1000), ("o", JVal.num 5)],
            [("o", JVal.num 7)],
            [("t", JVal.num 2000), ("c", JVal.null)]].filterMap rowPoint) ∧
    ([[("t", JVal.num 1000), ("o", JVal.num 5)],
      [("o", JVal.num 7)],
      [("t", JVal.num 2000), ("c", JVal.null)]].filterMap rowPoint).length =
      [[("t", JVal.num 1000), ("o", JVal.num 5)],
       [("o", JVal.num 7)],
       [("t", JVal.num 2000), ("c", JVal.null)]].length -
        [[("t", JVal.num 1000), ("o", JVal.num 5)],
         [("o", JVal.num 7)],
         [("t", JVal.num 2000), ("c", JVal.null)]].countP
          (fun row => (pyGet row "t").isNull) ∧
    (∀ row, (pyGet row "t").isNull = true → rowPoint row = none) ∧
    (∀ row k, pyGet row k = .null → optField row k = none) :=
  normalize_points_spec
    [[("t", JVal.num 1000), ("o", JVal.num 5)],
     [("o", JVal.num 7)],
     [("t", JVal.num 2000), ("c", JVal.null)]]
    (by decide)

/-- C9: the time-series endpoint cannot surface a configuration fault
for a missing Polygon key: `Settings` declares no `polygon_api_key`
field at all, so the guard's attribute access raises `AttributeError`
under every environment and the router returns the generic HTTP 502
gateway failure (and even the intended `ValueError` path would map to
HTTP 400, a client-input status), never an HTTP 500 configuration
fault naming the key. -/
theorem timeseries_missing_key_code_bug :
    (∀ env, settingsAttr env "polygon_api_key" = .error "AttributeError") ∧
    (∀ env, timeseries_key_guard_status env = .error 502) ∧
    (502 : ℕ) ≠ 500 ∧ (502 : ℕ) ≠ 400 := by
  refine ⟨?_, ?_, by decide, by decide⟩
  · intro env
    rw [settingsAttr, if_neg (by decide)]
  · intro env
    rw [timeseries_key_guard_status, settingsAttr, if_neg (by decide)]

theorem char_eq_of_toNat_eq {a b : Char} (h : a.toNat = b.toNat) : a = b := by
  apply Char.eq_of_val_eq
  apply UInt32.eq_of_toBitVec_eq
  exact BitVec.eq_of_toNat_eq h

theorem char_lt_iff_toNat {a b : Char} : a < b ↔ a.toNat < b.toNat := Iff.rfl

theorem digit_char_bounds (c : Char) (h : c.isDigit = true) : 48 ≤ c.toNat ∧ c.toNat ≤ 57 := by
  simp only [Char.isDigit, Bool.and_eq_true, decide_eq_true_eq] at h
  exact ⟨h.1, h.2⟩

theorem foldDigits_acc (cs : List Char) (a : ℕ) :
    List.foldl (fun n c => 10 * n + (c.toNat - 48)) a cs = a * 10 ^ cs.length + foldDigits cs := by
  induction cs generalizing a with
  | nil => simp [foldDigits]
  | cons c cs ih =>
      have h1 : foldDigits (c :: cs) =
          List.foldl (fun n c => 10 * n + (c.toNat - 48)) (10 * 0 + (c.toNat - 48)) cs := rfl
      rw [List.foldl_cons, ih, h1, ih, List.length_cons]
      ring

theorem foldDigits_cons (c : Char) (cs : List Char) :
    foldDigits (c :: cs) = (c.toNat - 48) * 10 ^ cs.length + foldDigits cs := by
  have h1 : foldDigits (c :: cs) =
      List.foldl (fun n c => 10 * n + (c.toNat - 48)) (10 * 0 + (c.toNat - 48)) cs := rfl
  rw [h1, foldDigits_acc]
  simp

theorem foldDigits_lt (cs : List Char) (h : cs.all Char.isDigit = true) :
    foldDigits cs < 10 ^ cs.length := by
  induction cs with
  | nil => simp [foldDigits]
  | cons c cs ih =>
      simp only [List.all_cons, Bool.and_eq_true] at h
      have hd : c.toNat - 48 ≤ 9 := by
        have := digit_char_bounds c h.1
        omega
      have hr := ih h.2
      rw [foldDigits_cons, List.length_cons]
      have hmul : (c.toNat - 48) * 10 ^ cs.length ≤ 9 * 10 ^ cs.length :=
        Nat.mul_le_mul_right _ hd
      have hpow : (10 : ℕ) ^ (cs.length + 1) = 10 * 10 ^ cs.length := by
        rw [pow_succ]; ring
      omega

theorem base_lt_iff (B dx dy rx ry : ℕ) (hrx : rx < B) (hry : ry < B) :
    dx * B + rx < dy * B + ry ↔ (dx < dy ∨ (dx = dy ∧ rx < ry)) := by
  constructor
  · intro h
    rcases Nat.lt_trichotomy dx dy with h1 | h1 | h1
    · exact Or.inl h1
    · subst h1
      exact Or.inr ⟨rfl, by omega⟩
    · exfalso
      have h2 : (dy + 1) * B ≤ dx * B := Nat.mul_le_mul_right _ h1
      rw [add_one_mul] at h2
      omega
  · rintro (h | ⟨rfl, h⟩)
    · have h2 : (dx + 1) * B ≤ dy * B := Nat.mul_le_mul_right _ h
      rw [add_one_mul] at h2
      omega
    · omega

theorem lex_cons_iff_char (x y : Char) (l m : List Char) :
    List.Lex (· < ·) (x :: l) (y :: m) ↔ x < y ∨ (x = y ∧ List.Lex (· < ·) l m) := by
  constructor
  · intro h
    cases h with
    | rel h => exact Or.inl h
    | cons h => exact Or.inr ⟨rfl, h⟩
  · rintro (h | ⟨rfl, h⟩)
    · exact List.Lex.rel h
    · exact List.Lex.cons h

theorem lex_append_iff (xs : List Char) (ys us vs : List Char) (hlen : xs.length = ys.length) :
    List.Lex (· < ·) (xs ++ us) (ys ++ vs) ↔
      List.Lex (· < ·) xs ys ∨ (xs = ys ∧ List.Lex (· < ·) us vs) := by
  induction xs generalizing ys with
  | nil =>
      cases ys with
      | nil => simp
      | cons y ys => simp at hlen
  | cons x xs ih =>
      cases ys with
      | nil => simp at hlen
      | cons y ys =>
          have hlen' : xs.length = ys.length := by simpa using hlen
          rw [List.cons_append, List.cons_append, lex_cons_iff_char, lex_cons_iff_char,
            ih ys hlen']
          simp only [List.cons.injEq]
          tauto

theorem lex_digits_iff (xs ys : List Char) (hlen : xs.length = ys.length)
    (hx : xs.all Char.isDigit = true) (hy : ys.all Char.isDigit = true) :
    List.Lex (· < ·) xs ys ↔ foldDigits xs < foldDigits ys := by
  induction xs generalizing ys with
  | nil =>
      cases ys with
      | nil => simp [foldDigits]
      | cons y ys => simp at hlen
  | cons x xs ih =>
      cases ys with
      | nil => simp at hlen
      | cons y ys =>
          have hlen' : xs.length = ys.length := by simpa using hlen
          simp only [List.all_cons, Bool.and_eq_true] at hx hy
          have hbx := digit_char_bounds x hx.1
          have hby := digit_char_bounds y hy.1
          have hrx : foldDigits xs < 10 ^ ys.length := hlen' ▸ foldDigits_lt xs hx.2
          have hry : foldDigits ys < 10 ^ ys.length := foldDigits_lt ys hy.2
          rw [lex_cons_iff_char, foldDigits_cons, foldDigits_cons, ih ys hlen' hx.2 hy.2,
            show (10 : ℕ) ^ xs.length = 10 ^ ys.length from by rw [hlen'],
            base_lt_iff _ _ _ _ _ hrx hry]
          have hxy_lt : x < y ↔ x.toNat - 48 < y.toNat - 48 := by
            rw [char_lt_iff_toNat]; omega
          have hxy_eq : x = y ↔ x.toNat - 48 = y.toNat - 48 := by
            constructor
            · rintro rfl; rfl
            · intro h
              apply char_eq_of_toNat_eq
              omega
          rw [hxy_lt, hxy_eq]

theorem digits_eq_iff (xs ys : List Char) (hlen : xs.length = ys.length)
    (hx : xs.all Char.isDigit = true) (hy : ys.all Char.isDigit = true) :
    xs = ys ↔ foldDigits xs = foldDigits ys := by
  constructor
  · rintro rfl; rfl
  · intro h
    rcases lt_trichotomy xs ys with hlt | he | hlt
    · have := (lex_digits_iff xs ys hlen hx hy).mp hlt
      omega
    · exact he
    · have := (lex_digits_iff ys xs hlen.symm hy hx).mp hlt
      omega

theorem parseDate_shape (s : String) (d : ℕ × ℕ × ℕ) (h : parseDate s = some d) :
    ∃ y1 y2 y3 y4 m1 m2 d1 d2,
      s.data = [y1, y2, y3, y4, '-', m1, m2, '-', d1, d2] ∧
      [y1, y2, y3, y4].all Char.isDigit = true ∧ [m1, m2].all Char.isDigit = true ∧
      [d1, d2].all Char.isDigit = true ∧
      d = (foldDigits [y1, y2, y3, y4], foldDigits [m1, m2], foldDigits [d1, d2]) := by
  unfold parseDate at h
  split at h
  next y1 y2 y3 y4 m1 m2 d1 d2 heq =>
      split at h
      next hcond =>
          simp only [Bool.and_eq_true] at hcond
          injection h with h'
          exact ⟨y1, y2, y3, y4, m1, m2, d1, d2, heq, hcond.1.1, hcond.1.2, hcond.2, h'.symm⟩
      next hcond => simp at h
  next heq => simp at h

theorem key_lt_iff (s t : String) (ds dt : ℕ × ℕ × ℕ)
    (hs : parseDate s = some ds) (ht : parseDate t = some dt) :
    s < t ↔ dateLt ds dt := by
  obtain ⟨y1, y2, y3, y4, m1, m2, d1, d2, hsd, hsy, hsm, hsdd, rfl⟩ := parseDate_shape s ds hs
  obtain ⟨z1, z2, z3, z4, n1, n2, e1, e2, htd, hty, htm, htdd, rfl⟩ := parseDate_shape t dt ht
  rw [String.lt_iff_toList_lt]
  have hs' : s.toList = [y1, y2, y3, y4, '-', m1, m2, '-', d1, d2] := hsd
  have ht' : t.toList = [z1, z2, z3, z4, '-', n1, n2, '-', e1, e2] := htd
  rw [hs', ht']
  show List.Lex (· < ·) _ _ ↔ _
  rw [show [y1, y2, y3, y4, '-', m1, m2, '-', d1, d2] =
        [y1, y2, y3, y4] ++ '-' :: ([m1, m2] ++ '-' :: [d1, d2]) from rfl,
      show [z1, z2, z3, z4, '-', n1, n2, '-', e1, e2] =
        [z1, z2, z3, z4] ++ '-' :: ([n1, n2] ++ '-' :: [e1, e2]) from rfl]
  rw [lex_append_iff [y1, y2, y3, y4] [z1, z2, z3, z4] _ _ rfl]
  rw [lex_digits_iff [y1, y2, y3, y4] [z1, z2, z3, z4] rfl hsy hty]
  rw [digits_eq_iff [y1, y2, y3, y4] [z1, z2, z3, z4] rfl hsy hty]
  rw [lex_cons_iff_char '-' '-' ([m1, m2] ++ '-' :: [d1, d2]) ([n1, n2] ++ '-' :: [e1, e2])]
  rw [lex_append_iff [m1, m2] [n1, n2] _ _ rfl]
  rw [lex_digits_iff [m1, m2] [n1, n2] rfl hsm htm]
  rw [digits_eq_iff [m1, m2] [n1, n2] rfl hsm htm]
  rw [lex_cons_iff_char '-' '-' [d1, d2] [e1, e2]]
  rw [lex_digits_iff [d1, d2] [e1, e2] rfl hsdd htdd]
  simp only [lt_self_iff_false, false_or, true_and]
  simp [dateLt]

theorem filterMap_length_of_isSome {α β : Type} (f : α → Option β) (l : List α)
    (h : ∀ a ∈ l, (f a).isSome = true) : (l.filterMap f).length = l.length := by
  induction l with
  | nil => rfl
  | cons a l ih =>
      rw [List.filterMap_cons]
      obtain ⟨b, hb⟩ := Option.isSome_iff_exists.mp (h a (List.mem_cons_self a l))
      rw [hb]
      simp [ih (fun x hx => h x (List.mem_cons_of_mem a hx))]

/-- C8: for a date-string-keyed series with distinct valid ISO date
keys and a positive limit `N` smaller than the series length, the
normalized output has exactly `N` points, they are in strictly
ascending chronological order, each comes from the series with its key
parsed to its date, and every key left out of the output is
chronologically earlier than every point in the output — the output is
exactly the `N` chronologically-latest points, ascending. -/
theorem date_series_latest (series : List (String × JVal)) (N : ℤ)
    (hnd : (series.map Prod.fst).Nodup)
    (hvalid : ∀ k ∈ series.map Prod.fst, (parseDate k).isSome = true)
    (h0 : 0 < N) (hlt : N.toNat < (series.map Prod.fst).length) :
    (normalize_date_series series N).length = N.toNat ∧
    List.Pairwise (fun p q => dateLt p.date q.date) (normalize_date_series series N) ∧
    (∀ p ∈ normalize_date_series series N,
      p.key ∈ series.map Prod.fst ∧ parseDate p.key = some p.date) ∧
    (∀ k ∈ series.map Prod.fst, (∀ p ∈ normalize_date_series series N, p.key ≠ k) →
      ∀ p ∈ normalize_date_series series N, ∃ dk, parseDate k = some dk ∧ dateLt dk p.date) := by
  have htrans : ∀ (a b c : String),
      decide (a ≤ b) = true → decide (b ≤ c) = true → decide (a ≤ c) = true := by
    intro a b c h1 h2
    simp only [decide_eq_true_eq] at *
    exact le_trans h1 h2
  have htotal : ∀ (a b : String), (decide (a ≤ b) || decide (b ≤ a)) = true := by
    intro a b
    simpa [Bool.or_eq_true, decide_eq_true_eq] using le_total a b
  obtain ⟨sorted, hsorteddef⟩ :
      ∃ sorted, sorted = (series.map Prod.fst).mergeSort (fun a b => decide (a ≤ b)) :=
    ⟨_, rfl⟩
  have hperm : List.Perm sorted (series.map Prod.fst) := by
    rw [hsorteddef]; exact List.mergeSort_perm _ _
  have hslen : sorted.length = (series.map Prod.fst).length := hperm.length_eq
  have hsnd : sorted.Nodup := hperm.nodup_iff.mpr hnd
  have hpair : sorted.Pairwise (fun a b => decide (a ≤ b) = true) := by
    rw [hsorteddef]; exact List.sorted_mergeSort htrans htotal _
  have hple : sorted.Pairwise (· ≤ ·) :=
    hpair.imp (fun h => by simpa [decide_eq_true_eq] using h)
  have hplt : sorted.Pairwise (· < ·) :=
    ((hple.and hsnd).imp (fun h => lt_of_le_of_ne h.1 h.2))
  have hvalid' : ∀ k ∈ sorted, (parseDate k).isSome = true :=
    fun k hk => hvalid k (hperm.subset hk)
  have hNle : N.toNat ≤ sorted.length := by omega
  have hout : normalize_date_series series N =
      (sorted.drop (sorted.length - N.toNat)).filterMap
        (fun k => (parseDate k).map (fun d => ⟨k, d, pyGet series k⟩)) := by
    rw [hsorteddef]
    simp only [normalize_date_series, if_pos h0]
  have hkeptvalid : ∀ k ∈ sorted.drop (sorted.length - N.toNat), (parseDate k).isSome = true :=
    fun k hk => hvalid' k (List.drop_subset _ _ hk)
  refine ⟨?_, ?_, ?_, ?_⟩
  · rw [hout, filterMap_length_of_isSome]
    · rw [List.length_drop]
      omega
    · intro k hk
      have hsome := hkeptvalid k hk
      cases hp : parseDate k with
      | none => rw [hp] at hsome; simp at hsome
      | some d => rfl
  · rw [hout]
    apply List.pairwise_filterMap.mpr
    apply (hplt.sublist (List.drop_sublist _ _)).imp
    intro a b hab p hp q hq
    rw [Option.mem_def, Option.map_eq_some'] at hp hq
    obtain ⟨da, hda, hpa⟩ := hp
    obtain ⟨db, hdb, hqb⟩ := hq
    subst hpa
    subst hqb
    exact (key_lt_iff a b da db hda hdb).mp hab
  · intro p hp
    rw [hout] at hp
    obtain ⟨k, hk, hfk⟩ := List.mem_filterMap.mp hp
    rw [Option.map_eq_some'] at hfk
    obtain ⟨d, hd, hgd⟩ := hfk
    subst hgd
    exact ⟨hperm.subset (List.drop_subset _ _ hk), hd⟩
  · intro k hk hknotin p hp
    have hksorted : k ∈ sorted := hperm.mem_iff.mpr hk
    have hknotkept : k ∉ sorted.drop (sorted.length - N.toNat) := by
      intro hkk
      obtain ⟨dk, hdk⟩ := Option.isSome_iff_exists.mp (hvalid' k hksorted)
      have hpt : (⟨k, dk, pyGet series k⟩ : DailyPoint) ∈ normalize_date_series series N := by
        rw [hout]
        exact List.mem_filterMap.mpr ⟨k, hkk, by rw [hdk]; rfl⟩
      exact hknotin _ hpt rfl
    have hktake : k ∈ sorted.take (sorted.length - N.toNat) := by
      have := List.take_append_drop (sorted.length - N.toNat) sorted
      rcases List.mem_append.mp (by rw [this]; exact hksorted) with h | h
      · exact h
      · exact absurd h hknotkept
    have hcross : ∀ x ∈ sorted.take (sorted.length - N.toNat),
        ∀ y ∈ sorted.drop (sorted.length - N.toNat), x ≤ y := by
      have hsplit := (List.take_append_drop (sorted.length - N.toNat) sorted).symm
      have := hple
      rw [hsplit] at this
      exact (List.pairwise_append.mp this).2.2
    have hdisj : List.Disjoint (sorted.take (sorted.length - N.toNat))
        (sorted.drop (sorted.length - N.toNat)) := by
      have hsplit := (List.take_append_drop (sorted.length - N.toNat) sorted).symm
      have := hsnd
      rw [hsplit] at this
      exact List.disjoint_of_nodup_append this
    rw [hout] at hp
    obtain ⟨kp, hkp, hfkp⟩ := List.mem_filterMap.mp hp
    rw [Option.map_eq_some'] at hfkp
    obtain ⟨dp, hdp, hgdp⟩ := hfkp
    subst hgdp
    obtain ⟨dk, hdk⟩ := Option.isSome_iff_exists.mp (hvalid' k hksorted)
    have hkle : k ≤ kp := hcross k hktake kp hkp
    have hkne : k ≠ kp := by
      intro heq
      exact hdisj hktake (heq ▸ hkp)
    exact ⟨dk, hdk, (key_lt_iff k kp dk dp hdk hdp).mp (lt_of_le_of_ne hkle hkne)⟩

/-- Witness for C8: three distinct ISO-dated entries with limit 2 give
exactly 2 output points. -/
theorem date_series_latest_witness :
    (normalize_date_series
      [("2024-01-02", JVal.null), ("2024-01-01", JVal.null), ("2024-01-03", JVal.null)]
      2).length = (2 : ℤ).toNat :=
  (date_series_latest
    [("2024-01-02", JVal.null), ("2024-01-01", JVal.null), ("2024-01-03", JVal.null)] 2
    (by decide) (by decide) (by decide) (by decide)).1
